import Mathlib

/-!
# MBCI GPIO shim: an embedding of `MBCI_GPIO.h`

The three operations of the header (`mbci_gpio_init`, `mbci_gpio_set`,
`mbci_gpio_get`) are translated branch by branch.  Every access to a
memory-mapped register goes through a `Bus`, so that the same translation
can be run over plain register memory (`memBus`) and over a simulated
register block whose input-data register mirrors an output latch
(`fakeBus`).

Conventions of the embedding:

* a pin name (`char *name`) is a list of characters; `name[i]` past the end
  of the list reads as the NUL character;
* the mode argument is the raw value of the C enumeration (a `Nat`), the
  level argument of `mbci_gpio_set` is an `Int`;
* a register holds a natural number; a pin's bit is `Nat.testBit`;
* `(uint16_t)0x0001 << GPIO_PIN` is the mathematical shift reduced to the
  16-bit register width, `(1 <<< GPIO_PIN) % 2 ^ 16`.  This is the value of
  the C expression for a shift count below 16.  For a larger count the C
  shift is carried out at the width of `int` and is undefined from 31 on, and
  the width of a register is declared in a vendor header outside the sources,
  so the value 0 of the model is a convention there.  Statements that are
  meant to hold whatever the expression yields keep `pinMask name` symbolic
  and their proofs do not use its value;
* `mbci_gpio_get` returns `none` when the C function falls off its end
  without executing a `return`.
-/

namespace MBCI

/-! ## Data model -/

/-- The four statically addressed register blocks `GPIO_REG_A`, `GPIO_REG_B`,
`GPIO_REG_C`, `GPIO_REG_F`. -/
inductive Port where
  | A | B | C | F
  deriving DecidableEq, Repr

/-- The registers of a block that the header touches. -/
inductive Reg where
  | DIR | PUR | PDR | OPENDRAIN | BSRR | BRR | IDR
  deriving DecidableEq, Repr

/-- Register access: how a load and a store of a register of a block act on
the state of the device. -/
structure Bus (σ : Type) where
  load : σ → Port → Reg → Nat
  store : σ → Port → Reg → Nat → σ

/-- Contents of every register of the four blocks. -/
abbrev Regs := Port → Reg → Nat

/-- Plain register memory: a load returns the last stored value. -/
def memBus : Bus Regs where
  load := fun s p r => s p r
  store := fun s p r v => fun p1 r1 => if p1 = p ∧ r1 = r then v else s p1 r1

/-- A pin name, the `char *name` argument. -/
abbrev PinName := List Char

/-- The expression `name[i]`. -/
def charAt (name : PinName) (i : Nat) : Char :=
  name.getD i (Char.ofNat 0)

/-- The cast `(uint16_t)c` of a character. -/
def u16 (c : Char) : Nat :=
  c.toNat % 65536

def MBCI_IO_HIGH : Int := 1
def MBCI_IO_LOW : Int := 0

def MBCI_GPIO_IN_FLOATING : Nat := 0x00
def MBCI_GPIO_IN_PULL_UP : Nat := 0x01
def MBCI_GPIO_IN_PULL_DOWN : Nat := 0x02
def MBCI_GPIO_OUT_PP : Nat := 0x10
def MBCI_GPIO_OUT_OD : Nat := 0x11

/-- The macro `GPIO_PIN`: `(((uint16_t)name[3])*10+(uint16_t)name[4])`. -/
def GPIO_PIN (name : PinName) : Nat :=
  u16 (charAt name 3) * 10 + u16 (charAt name 4)

/-- The expression `(uint16_t)0x0001<<GPIO_PIN`, reduced to the 16-bit
register width.  It is the value of the C expression when `GPIO_PIN` is below
16; for a larger shift count (undefined in C from 31 on) the value 0 is the
convention of this embedding. -/
def pinMask (name : PinName) : Nat :=
  ((0x0001 % 65536) <<< GPIO_PIN name) % 65536

/-- Modelled from the spec: the macro `REGBITS_SET` comes from a vendor header
that is not part of the sources; the spec describes it as a read-modify-write
that sets the given bits of the register (`REG |= BITS`). -/
def REGBITS_SET {σ : Type} (bus : Bus σ) (p : Port) (r : Reg) (bits : Nat) (s : σ) : σ :=
  bus.store s p r (bus.load s p r ||| bits)

/-- Modelled from the spec: the macro `REGBITS_CLR` comes from a vendor header
that is not part of the sources; the spec describes it as a read-modify-write
that clears the given bits of the register and leaves the others
(`REG &= ~BITS`).  On natural numbers the bits of `reg` that are also in
`bits` are removed by an exclusive or. -/
def REGBITS_CLR {σ : Type} (bus : Bus σ) (p : Port) (r : Reg) (bits : Nat) (s : σ) : σ :=
  bus.store s p r (bus.load s p r ^^^ (bus.load s p r &&& bits))

/-! ## The three operations -/

/-- The function `mbci_gpio_init`, four sequential `if` blocks, one per port. -/
def mbci_gpio_init {σ : Type} (bus : Bus σ) (name : PinName) (dir : Nat) (s0 : σ) : σ :=
  let s1 :=
    if charAt name 1 = 'A' then
      if dir = (MBCI_GPIO_IN_FLOATING ||| MBCI_GPIO_IN_PULL_UP ||| MBCI_GPIO_IN_PULL_DOWN) then
        let t := REGBITS_SET bus Port.A Reg.DIR (pinMask name) s0
        let t := if dir = MBCI_GPIO_IN_FLOATING then
            REGBITS_CLR bus Port.A Reg.PDR (pinMask name)
              (REGBITS_SET bus Port.A Reg.PUR (pinMask name) t)
          else t
        let t := if dir = MBCI_GPIO_IN_PULL_UP then
            REGBITS_CLR bus Port.A Reg.PDR (pinMask name)
              (REGBITS_SET bus Port.A Reg.PUR (pinMask name) t)
          else t
        let t := if dir = MBCI_GPIO_IN_PULL_DOWN then
            REGBITS_CLR bus Port.A Reg.PUR (pinMask name)
              (REGBITS_SET bus Port.A Reg.PDR (pinMask name) t)
          else t
        t
      else
        let t := REGBITS_CLR bus Port.A Reg.DIR (pinMask name) s0
        let t := if dir = MBCI_GPIO_OUT_PP then
            REGBITS_CLR bus Port.A Reg.OPENDRAIN (pinMask name) t
          else
            REGBITS_SET bus Port.A Reg.OPENDRAIN (pinMask name) t
        let t := if dir = MBCI_GPIO_OUT_OD then
            REGBITS_SET bus Port.A Reg.OPENDRAIN (pinMask name) t
          else
            REGBITS_CLR bus Port.A Reg.OPENDRAIN (pinMask name) t
        t
    else s0
  let s2 :=
    if charAt name 1 = 'B' then
      if dir = (MBCI_GPIO_IN_FLOATING ||| MBCI_GPIO_IN_PULL_UP ||| MBCI_GPIO_IN_PULL_DOWN) then
        let t := REGBITS_SET bus Port.B Reg.DIR (pinMask name) s1
        let t := if dir = MBCI_GPIO_IN_FLOATING then
            REGBITS_CLR bus Port.B Reg.PDR (pinMask name)
              (REGBITS_SET bus Port.B Reg.PUR (pinMask name) t)
          else t
        let t := if dir = MBCI_GPIO_IN_PULL_UP then
            REGBITS_CLR bus Port.B Reg.PDR (pinMask name)
              (REGBITS_SET bus Port.B Reg.PUR (pinMask name) t)
          else t
        let t := if dir = MBCI_GPIO_IN_PULL_DOWN then
            REGBITS_CLR bus Port.B Reg.PUR (pinMask name)
              (REGBITS_SET bus Port.B Reg.PDR (pinMask name) t)
          else t
        t
      else
        let t := REGBITS_CLR bus Port.B Reg.DIR (pinMask name) s1
        let t := if dir = MBCI_GPIO_OUT_PP then
            REGBITS_CLR bus Port.B Reg.OPENDRAIN (pinMask name) t
          else
            REGBITS_SET bus Port.B Reg.OPENDRAIN (pinMask name) t
        let t := if dir = MBCI_GPIO_OUT_OD then
            REGBITS_SET bus Port.B Reg.OPENDRAIN (pinMask name) t
          else
            REGBITS_CLR bus Port.B Reg.OPENDRAIN (pinMask name) t
        t
    else s1
  let s3 :=
    if charAt name 1 = 'C' then
      if dir = (MBCI_GPIO_IN_FLOATING ||| MBCI_GPIO_IN_PULL_UP ||| MBCI_GPIO_IN_PULL_DOWN) then
        let t := REGBITS_SET bus Port.C Reg.DIR (pinMask name) s2
        let t := if dir = MBCI_GPIO_IN_FLOATING then
            REGBITS_CLR bus Port.C Reg.PDR (pinMask name)
              (REGBITS_SET bus Port.C Reg.PUR (pinMask name) t)
          else t
        let t := if dir = MBCI_GPIO_IN_PULL_UP then
            REGBITS_CLR bus Port.C Reg.PDR (pinMask name)
              (REGBITS_SET bus Port.C Reg.PUR (pinMask name) t)
          else t
        let t := if dir = MBCI_GPIO_IN_PULL_DOWN then
            REGBITS_CLR bus Port.C Reg.PUR (pinMask name)
              (REGBITS_SET bus Port.C Reg.PDR (pinMask name) t)
          else t
        t
      else
        let t := REGBITS_CLR bus Port.C Reg.DIR (pinMask name) s2
        let t := if dir = MBCI_GPIO_OUT_PP then
            REGBITS_CLR bus Port.C Reg.OPENDRAIN (pinMask name) t
          else
            REGBITS_SET bus Port.C Reg.OPENDRAIN (pinMask name) t
        let t := if dir = MBCI_GPIO_OUT_OD then
            REGBITS_SET bus Port.C Reg.OPENDRAIN (pinMask name) t
          else
            REGBITS_CLR bus Port.C Reg.OPENDRAIN (pinMask name) t
        t
    else s2
  let s4 :=
    if charAt name 1 = 'F' then
      if dir = (MBCI_GPIO_IN_FLOATING ||| MBCI_GPIO_IN_PULL_UP ||| MBCI_GPIO_IN_PULL_DOWN) then
        let t := REGBITS_SET bus Port.F Reg.DIR (pinMask name) s3
        let t := if dir = MBCI_GPIO_IN_FLOATING then
            REGBITS_CLR bus Port.F Reg.PDR (pinMask name)
              (REGBITS_SET bus Port.F Reg.PUR (pinMask name) t)
          else t
        let t := if dir = MBCI_GPIO_IN_PULL_UP then
            REGBITS_CLR bus Port.F Reg.PDR (pinMask name)
              (REGBITS_SET bus Port.F Reg.PUR (pinMask name) t)
          else t
        let t := if dir = MBCI_GPIO_IN_PULL_DOWN then
            REGBITS_CLR bus Port.F Reg.PUR (pinMask name)
              (REGBITS_SET bus Port.F Reg.PDR (pinMask name) t)
          else t
        t
      else
        let t := REGBITS_CLR bus Port.F Reg.DIR (pinMask name) s3
        let t := if dir = MBCI_GPIO_OUT_PP then
            REGBITS_CLR bus Port.F Reg.OPENDRAIN (pinMask name) t
          else
            REGBITS_SET bus Port.F Reg.OPENDRAIN (pinMask name) t
        let t := if dir = MBCI_GPIO_OUT_OD then
            REGBITS_SET bus Port.F Reg.OPENDRAIN (pinMask name) t
          else
            REGBITS_CLR bus Port.F Reg.OPENDRAIN (pinMask name) t
        t
    else s3
  s4

/-- The function `mbci_gpio_set`, four sequential `if` blocks, one per port. -/
def mbci_gpio_set {σ : Type} (bus : Bus σ) (name : PinName) (value : Int) (s0 : σ) : σ :=
  let s1 :=
    if charAt name 1 = 'A' then
      if value = MBCI_IO_HIGH then bus.store s0 Port.A Reg.BSRR (pinMask name)
      else bus.store s0 Port.A Reg.BRR (pinMask name)
    else s0
  let s2 :=
    if charAt name 1 = 'B' then
      if value = MBCI_IO_HIGH then bus.store s1 Port.B Reg.BSRR (pinMask name)
      else bus.store s1 Port.B Reg.BRR (pinMask name)
    else s1
  let s3 :=
    if charAt name 1 = 'C' then
      if value = MBCI_IO_HIGH then bus.store s2 Port.C Reg.BSRR (pinMask name)
      else bus.store s2 Port.C Reg.BRR (pinMask name)
    else s2
  let s4 :=
    if charAt name 1 = 'F' then
      if value = MBCI_IO_HIGH then bus.store s3 Port.F Reg.BSRR (pinMask name)
      else bus.store s3 Port.F Reg.BRR (pinMask name)
    else s3
  s4

/-- The function `mbci_gpio_get`, an `if / else if` chain over the four ports;
the result is `none` when no `return` statement is reached. -/
def mbci_gpio_get {σ : Type} (bus : Bus σ) (name : PinName) (s : σ) : Option Int :=
  if charAt name 1 = 'A' then
    if bus.load s Port.A Reg.IDR &&& pinMask name ≠ 0 then some MBCI_IO_HIGH
    else some MBCI_IO_LOW
  else if charAt name 1 = 'B' then
    if bus.load s Port.B Reg.IDR &&& pinMask name ≠ 0 then some MBCI_IO_HIGH
    else some MBCI_IO_LOW
  else if charAt name 1 = 'C' then
    if bus.load s Port.C Reg.IDR &&& pinMask name ≠ 0 then some MBCI_IO_HIGH
    else some MBCI_IO_LOW
  else if charAt name 1 = 'F' then
    if bus.load s Port.F Reg.IDR &&& pinMask name ≠ 0 then some MBCI_IO_HIGH
    else some MBCI_IO_LOW
  else none

/-! ## Notions of the specification -/

/-- The register block that the port designator `name[1]` selects, if any:
the spec's fixed map from the designators A, B, C, F to the four blocks. -/
def portOf (name : PinName) : Option Port :=
  if charAt name 1 = 'A' then some Port.A
  else if charAt name 1 = 'B' then some Port.B
  else if charAt name 1 = 'C' then some Port.C
  else if charAt name 1 = 'F' then some Port.F
  else none

/-- An ASCII decimal digit. -/
def IsDigit (c : Char) : Prop :=
  48 ≤ c.toNat ∧ c.toNat ≤ 57

instance (c : Char) : Decidable (IsDigit c) := by
  unfold IsDigit; infer_instance

/-- The spec's pin index of an identifier: the number written by the two
digits `name[3]`, `name[4]`. -/
def pinIndex (name : PinName) : Nat :=
  ((charAt name 3).toNat - 48) * 10 + ((charAt name 4).toNat - 48)

/-- A well-formed pin identifier in the spec's sense: its fourth and fifth
characters are decimal digits. -/
def HasPinDigits (name : PinName) : Prop :=
  IsDigit (charAt name 3) ∧ IsDigit (charAt name 4)

instance (name : PinName) : Decidable (HasPinDigits name) := by
  unfold HasPinDigits; infer_instance

/-- The spec's single generic configure routine: the logic of the port-A
branch of `mbci_gpio_init`, applied to the block `p`. -/
def initBlock {σ : Type} (bus : Bus σ) (p : Port) (name : PinName) (dir : Nat) (s0 : σ) : σ :=
  if dir = (MBCI_GPIO_IN_FLOATING ||| MBCI_GPIO_IN_PULL_UP ||| MBCI_GPIO_IN_PULL_DOWN) then
    let t := REGBITS_SET bus p Reg.DIR (pinMask name) s0
    let t := if dir = MBCI_GPIO_IN_FLOATING then
        REGBITS_CLR bus p Reg.PDR (pinMask name) (REGBITS_SET bus p Reg.PUR (pinMask name) t)
      else t
    let t := if dir = MBCI_GPIO_IN_PULL_UP then
        REGBITS_CLR bus p Reg.PDR (pinMask name) (REGBITS_SET bus p Reg.PUR (pinMask name) t)
      else t
    let t := if dir = MBCI_GPIO_IN_PULL_DOWN then
        REGBITS_CLR bus p Reg.PUR (pinMask name) (REGBITS_SET bus p Reg.PDR (pinMask name) t)
      else t
    t
  else
    let t := REGBITS_CLR bus p Reg.DIR (pinMask name) s0
    let t := if dir = MBCI_GPIO_OUT_PP then
        REGBITS_CLR bus p Reg.OPENDRAIN (pinMask name) t
      else
        REGBITS_SET bus p Reg.OPENDRAIN (pinMask name) t
    let t := if dir = MBCI_GPIO_OUT_OD then
        REGBITS_SET bus p Reg.OPENDRAIN (pinMask name) t
      else
        REGBITS_CLR bus p Reg.OPENDRAIN (pinMask name) t
    t

/-- The spec's single generic write routine: the logic of the port-A branch
of `mbci_gpio_set`, applied to the block `p`. -/
def setBlock {σ : Type} (bus : Bus σ) (p : Port) (name : PinName) (value : Int) (s0 : σ) : σ :=
  if value = MBCI_IO_HIGH then bus.store s0 p Reg.BSRR (pinMask name)
  else bus.store s0 p Reg.BRR (pinMask name)

/-- The spec's single generic read routine: the logic of the port-A branch
of `mbci_gpio_get`, applied to the block `p`. -/
def getBlock {σ : Type} (bus : Bus σ) (p : Port) (name : PinName) (s : σ) : Int :=
  if bus.load s p Reg.IDR &&& pinMask name ≠ 0 then MBCI_IO_HIGH else MBCI_IO_LOW

/-- Modelled from the spec: the simulated register block of the round-trip
property, which is a test fixture and not part of the sources.  A store to
`BSRR` sets, and a store to `BRR` clears, the stored bits of the output latch
of the block; the input-data register `IDR` is that latch.  Every other
register is plain memory. -/
def fakeBus : Bus Regs where
  load := fun s p r => s p r
  store := fun s p r v =>
    match r with
    | Reg.BSRR => fun p1 r1 =>
        if p1 = p ∧ r1 = Reg.IDR then s p Reg.IDR ||| v else s p1 r1
    | Reg.BRR => fun p1 r1 =>
        if p1 = p ∧ r1 = Reg.IDR then s p Reg.IDR ^^^ (s p Reg.IDR &&& v) else s p1 r1
    | _ => fun p1 r1 => if p1 = p ∧ r1 = r then v else s p1 r1

/-- The register state in which every register of every block holds `v`. -/
def constRegs (v : Nat) : Regs := fun _ _ => v

/-- A name whose fourth and fifth characters are the raw character codes
`0` and `n`, so that `GPIO_PIN` evaluates to `n` itself. -/
def rawName (port : Char) (n : Nat) : PinName :=
  ['P', port, '.', Char.ofNat 0, Char.ofNat n]

/-! ## Auxiliary lemmas -/

theorem clr_testBit (x m j : Nat) :
    (x ^^^ (x &&& m)).testBit j = (x.testBit j && !m.testBit j) := by
  rw [Nat.testBit_xor, Nat.testBit_land]
  cases x.testBit j <;> cases m.testBit j <;> rfl

/-- On 16-bit words the clearing of `REGBITS_CLR` is `reg & ~bits` with the
16-bit complement. -/
theorem clr_eq_and_not16 (x m : Nat) (hx : x < 65536) :
    x ^^^ (x &&& m) = x &&& (65535 ^^^ (m % 65536)) := by
  apply Nat.eq_of_testBit_eq
  intro j
  rw [clr_testBit, Nat.testBit_land, Nat.testBit_xor]
  have h16 : (65536 : Nat) = 2 ^ 16 := by norm_num
  have h15 : (65535 : Nat) = 2 ^ 16 - 1 := by norm_num
  rw [h16, Nat.testBit_mod_two_pow, h15, Nat.testBit_two_pow_sub_one]
  by_cases hj : j < 16
  · simp [hj]
  · have hxj : x.testBit j = false := by
      apply Nat.testBit_eq_false_of_lt
      calc x < 2 ^ 16 := by omega
        _ ≤ 2 ^ j := Nat.pow_le_pow_right (by norm_num) (by omega)
    simp [hxj]

theorem pinMask_eq (name : PinName) :
    pinMask name = if GPIO_PIN name < 16 then 2 ^ GPIO_PIN name else 0 := by
  unfold pinMask
  have h1 : (0x0001 % 65536 : Nat) = 1 := by norm_num
  rw [h1, Nat.one_shiftLeft]
  split
  · next h =>
    apply Nat.mod_eq_of_lt
    calc 2 ^ GPIO_PIN name < 2 ^ 16 := Nat.pow_lt_pow_right (by norm_num) h
      _ = 65536 := by norm_num
  · next h =>
    have h16 : (65536 : Nat) = 2 ^ 16 := by norm_num
    rw [h16]
    exact Nat.mod_eq_zero_of_dvd (Nat.pow_dvd_pow 2 (by omega))

theorem pinMask_testBit (name : PinName) (j : Nat) :
    (pinMask name).testBit j = decide (GPIO_PIN name = j ∧ j < 16) := by
  rw [pinMask_eq]
  split
  · next h =>
    rw [Nat.testBit_two_pow]
    by_cases hj : GPIO_PIN name = j
    · subst hj; simp [h]
    · simp [hj]
  · next h =>
    have : ¬ (GPIO_PIN name = j ∧ j < 16) := by omega
    simp [this]

theorem pinMask_of_ge (name : PinName) (h : 16 ≤ GPIO_PIN name) : pinMask name = 0 := by
  rw [pinMask_eq, if_neg (by omega)]

theorem pinMask_of_lt (name : PinName) (h : GPIO_PIN name < 16) :
    pinMask name = 2 ^ GPIO_PIN name := by
  rw [pinMask_eq, if_pos h]

theorem and_pinMask_ne_zero (x : Nat) (name : PinName) :
    x &&& pinMask name ≠ 0 ↔ (GPIO_PIN name < 16 ∧ x.testBit (GPIO_PIN name) = true) := by
  rw [pinMask_eq]
  split
  · next h =>
    rw [Nat.and_two_pow]
    cases hb : x.testBit (GPIO_PIN name) <;> simp [h]
  · next h => simp [h]

/-- With decimal digits at positions 3 and 4 the macro adds the character
codes, so it is the pin index plus `48 * 11`. -/
theorem GPIO_PIN_of_digits (name : PinName) (h : HasPinDigits name) :
    GPIO_PIN name = 528 + pinIndex name := by
  obtain ⟨⟨a1, a2⟩, ⟨b1, b2⟩⟩ := h
  unfold GPIO_PIN pinIndex u16
  omega

theorem pinMask_of_digits (name : PinName) (h : HasPinDigits name) : pinMask name = 0 :=
  pinMask_of_ge name (by rw [GPIO_PIN_of_digits name h]; omega)

/-! ### One branch runs per call -/

theorem init_of_port {σ : Type} (bus : Bus σ) (name : PinName) (dir : Nat) (s : σ) (p : Port)
    (h : portOf name = some p) :
    mbci_gpio_init bus name dir s = initBlock bus p name dir s := by
  unfold portOf at h
  unfold mbci_gpio_init initBlock
  generalize charAt name 1 = c at h ⊢
  by_cases hA : c = 'A'
  · subst hA; simp at h; subst h; simp
  by_cases hB : c = 'B'
  · subst hB; simp at h; subst h; simp
  by_cases hC : c = 'C'
  · subst hC; simp at h; subst h; simp
  by_cases hF : c = 'F'
  · subst hF; simp at h; subst h; simp
  simp [hA, hB, hC, hF] at h

theorem init_of_no_port {σ : Type} (bus : Bus σ) (name : PinName) (dir : Nat) (s : σ)
    (hA : charAt name 1 ≠ 'A') (hB : charAt name 1 ≠ 'B') (hC : charAt name 1 ≠ 'C')
    (hF : charAt name 1 ≠ 'F') :
    mbci_gpio_init bus name dir s = s := by
  unfold mbci_gpio_init
  simp [hA, hB, hC, hF]

theorem set_of_port {σ : Type} (bus : Bus σ) (name : PinName) (value : Int) (s : σ) (p : Port)
    (h : portOf name = some p) :
    mbci_gpio_set bus name value s = setBlock bus p name value s := by
  unfold portOf at h
  unfold mbci_gpio_set setBlock
  generalize charAt name 1 = c at h ⊢
  by_cases hA : c = 'A'
  · subst hA; simp at h; subst h; simp
  by_cases hB : c = 'B'
  · subst hB; simp at h; subst h; simp
  by_cases hC : c = 'C'
  · subst hC; simp at h; subst h; simp
  by_cases hF : c = 'F'
  · subst hF; simp at h; subst h; simp
  simp [hA, hB, hC, hF] at h

theorem set_of_no_port {σ : Type} (bus : Bus σ) (name : PinName) (value : Int) (s : σ)
    (hA : charAt name 1 ≠ 'A') (hB : charAt name 1 ≠ 'B') (hC : charAt name 1 ≠ 'C')
    (hF : charAt name 1 ≠ 'F') :
    mbci_gpio_set bus name value s = s := by
  unfold mbci_gpio_set
  simp [hA, hB, hC, hF]

theorem get_of_port {σ : Type} (bus : Bus σ) (name : PinName) (s : σ) (p : Port)
    (h : portOf name = some p) :
    mbci_gpio_get bus name s = some (getBlock bus p name s) := by
  unfold portOf at h
  unfold mbci_gpio_get getBlock
  generalize charAt name 1 = c at h ⊢
  by_cases hA : c = 'A'
  · subst hA; simp at h; subst h; simp; split <;> rfl
  by_cases hB : c = 'B'
  · subst hB; simp at h; subst h; simp; split <;> rfl
  by_cases hC : c = 'C'
  · subst hC; simp at h; subst h; simp; split <;> rfl
  by_cases hF : c = 'F'
  · subst hF; simp at h; subst h; simp; split <;> rfl
  simp [hA, hB, hC, hF] at h

/-! ### Plain register memory -/

theorem mem_set_apply (p : Port) (r : Reg) (m : Nat) (s : Regs) (q : Port) (r1 : Reg) :
    REGBITS_SET memBus p r m s q r1 = if q = p ∧ r1 = r then s q r1 ||| m else s q r1 := by
  unfold REGBITS_SET memBus
  by_cases h : q = p ∧ r1 = r
  · obtain ⟨h1, h2⟩ := h
    subst h1; subst h2; simp
  · simp [h]

theorem mem_clr_apply (p : Port) (r : Reg) (m : Nat) (s : Regs) (q : Port) (r1 : Reg) :
    REGBITS_CLR memBus p r m s q r1 =
      if q = p ∧ r1 = r then s q r1 ^^^ (s q r1 &&& m) else s q r1 := by
  unfold REGBITS_CLR memBus
  by_cases h : q = p ∧ r1 = r
  · obtain ⟨h1, h2⟩ := h
    subst h1; subst h2; simp
  · simp [h]

theorem mem_set_zero (p : Port) (r : Reg) (s : Regs) : REGBITS_SET memBus p r 0 s = s := by
  funext q r1
  rw [mem_set_apply]
  simp

theorem mem_clr_zero (p : Port) (r : Reg) (s : Regs) : REGBITS_CLR memBus p r 0 s = s := by
  funext q r1
  rw [mem_clr_apply]
  simp

/-- A bit that is outside the block, outside the four configuration
registers, or outside the mask, survives a `REGBITS_SET`. -/
theorem mem_set_frame (p : Port) (r : Reg) (m : Nat) (s : Regs) (q : Port) (r1 : Reg) (j : Nat)
    (h : q ≠ p ∨ r1 ≠ r ∨ m.testBit j = false) :
    (REGBITS_SET memBus p r m s q r1).testBit j = (s q r1).testBit j := by
  rw [mem_set_apply]
  split
  · next hc =>
    rcases h with h | h | h
    · exact absurd hc.1 h
    · exact absurd hc.2 h
    · rw [Nat.testBit_lor, h, Bool.or_false]
  · rfl

theorem mem_clr_frame (p : Port) (r : Reg) (m : Nat) (s : Regs) (q : Port) (r1 : Reg) (j : Nat)
    (h : q ≠ p ∨ r1 ≠ r ∨ m.testBit j = false) :
    (REGBITS_CLR memBus p r m s q r1).testBit j = (s q r1).testBit j := by
  rw [mem_clr_apply]
  split
  · next hc =>
    rcases h with h | h | h
    · exact absurd hc.1 h
    · exact absurd hc.2 h
    · rw [clr_testBit, h]; simp
  · rfl

/-- The generic configure routine changes a bit only if it lies in the block
`p`, in a register other than `BSRR`, `BRR`, `IDR`, and in the mask. -/
theorem initBlock_mem_frame (p : Port) (name : PinName) (dir : Nat) (s : Regs)
    (q : Port) (r1 : Reg) (j : Nat)
    (h : q ≠ p ∨ r1 = Reg.BSRR ∨ r1 = Reg.BRR ∨ r1 = Reg.IDR ∨
      (pinMask name).testBit j = false) :
    (initBlock memBus p name dir s q r1).testBit j = (s q r1).testBit j := by
  have hs : ∀ (r : Reg) (t : Regs), r ≠ Reg.BSRR → r ≠ Reg.BRR → r ≠ Reg.IDR →
      (REGBITS_SET memBus p r (pinMask name) t q r1).testBit j = (t q r1).testBit j := by
    intro r t h1 h2 h3
    apply mem_set_frame
    rcases h with h | h | h | h | h
    · exact Or.inl h
    · exact Or.inr (Or.inl (by rw [h]; exact fun e => h1 e.symm))
    · exact Or.inr (Or.inl (by rw [h]; exact fun e => h2 e.symm))
    · exact Or.inr (Or.inl (by rw [h]; exact fun e => h3 e.symm))
    · exact Or.inr (Or.inr h)
  have hc : ∀ (r : Reg) (t : Regs), r ≠ Reg.BSRR → r ≠ Reg.BRR → r ≠ Reg.IDR →
      (REGBITS_CLR memBus p r (pinMask name) t q r1).testBit j = (t q r1).testBit j := by
    intro r t h1 h2 h3
    apply mem_clr_frame
    rcases h with h | h | h | h | h
    · exact Or.inl h
    · exact Or.inr (Or.inl (by rw [h]; exact fun e => h1 e.symm))
    · exact Or.inr (Or.inl (by rw [h]; exact fun e => h2 e.symm))
    · exact Or.inr (Or.inl (by rw [h]; exact fun e => h3 e.symm))
    · exact Or.inr (Or.inr h)
  unfold initBlock
  split_ifs <;> simp [hs, hc]

theorem initBlock_mem_mask_zero (p : Port) (name : PinName) (dir : Nat) (s : Regs)
    (h : pinMask name = 0) : initBlock memBus p name dir s = s := by
  funext q r1
  apply Nat.eq_of_testBit_eq
  intro j
  apply initBlock_mem_frame
  simp [h]

/-- The direction register after the generic configure routine: the mask is
set when the mode value is `0x03` and cleared for every other mode value. -/
theorem initBlock_mem_DIR (p : Port) (name : PinName) (dir : Nat) (s : Regs) (j : Nat) :
    (initBlock memBus p name dir s p Reg.DIR).testBit j =
      if dir = 3 then ((s p Reg.DIR).testBit j || (pinMask name).testBit j)
      else ((s p Reg.DIR).testBit j && !(pinMask name).testBit j) := by
  unfold initBlock MBCI_GPIO_IN_FLOATING MBCI_GPIO_IN_PULL_UP MBCI_GPIO_IN_PULL_DOWN
    MBCI_GPIO_OUT_PP MBCI_GPIO_OUT_OD
  have h3 : (0x00 ||| 0x01 ||| 0x02 : Nat) = 3 := by decide
  rw [h3]
  by_cases hd : dir = 3
  · subst hd
    simp [mem_set_apply, Nat.testBit_lor]
  · simp only [if_neg hd]
    split_ifs <;> simp [mem_set_apply, mem_clr_apply] <;>
      cases (s p Reg.DIR).testBit j <;> cases (pinMask name).testBit j <;> rfl

/-- The open-drain register after the generic configure routine. -/
theorem initBlock_mem_OPENDRAIN (p : Port) (name : PinName) (dir : Nat) (s : Regs) (j : Nat) :
    (initBlock memBus p name dir s p Reg.OPENDRAIN).testBit j =
      if dir = 3 then (s p Reg.OPENDRAIN).testBit j
      else if dir = 0x11 then ((s p Reg.OPENDRAIN).testBit j || (pinMask name).testBit j)
      else ((s p Reg.OPENDRAIN).testBit j && !(pinMask name).testBit j) := by
  unfold initBlock MBCI_GPIO_IN_FLOATING MBCI_GPIO_IN_PULL_UP MBCI_GPIO_IN_PULL_DOWN
    MBCI_GPIO_OUT_PP MBCI_GPIO_OUT_OD
  have h3 : (0x00 ||| 0x01 ||| 0x02 : Nat) = 3 := by decide
  rw [h3]
  by_cases hd : dir = 3
  · subst hd
    simp [mem_set_apply]
  · simp only [if_neg hd]
    by_cases ho : dir = 0x11
    · subst ho
      simp [mem_set_apply, mem_clr_apply, Nat.testBit_lor]
    · simp only [if_neg ho]
      by_cases hp : dir = 0x10
      · subst hp
        simp [mem_set_apply, mem_clr_apply]
        cases (s p Reg.OPENDRAIN).testBit j <;> cases (pinMask name).testBit j <;> rfl
      · simp only [if_neg hp]
        simp [mem_set_apply, mem_clr_apply, Nat.testBit_lor]
        cases (s p Reg.OPENDRAIN).testBit j <;> cases (pinMask name).testBit j <;> rfl

/-- The pull-up and pull-down registers are not changed by the generic
configure routine, whatever the mode value. -/
theorem initBlock_mem_pull (p : Port) (name : PinName) (dir : Nat) (s : Regs) :
    initBlock memBus p name dir s p Reg.PUR = s p Reg.PUR ∧
    initBlock memBus p name dir s p Reg.PDR = s p Reg.PDR := by
  unfold initBlock MBCI_GPIO_IN_FLOATING MBCI_GPIO_IN_PULL_UP MBCI_GPIO_IN_PULL_DOWN
    MBCI_GPIO_OUT_PP MBCI_GPIO_OUT_OD
  have h3 : (0x00 ||| 0x01 ||| 0x02 : Nat) = 3 := by decide
  rw [h3]
  by_cases hd : dir = 3
  · subst hd
    simp [mem_set_apply]
  · simp only [if_neg hd]
    constructor <;> split_ifs <;> simp [mem_set_apply, mem_clr_apply]

/-! ### The simulated register block -/

/-- The configure routine only stores to `DIR`, `PUR`, `PDR` and
`OPENDRAIN`, which the simulated block keeps as plain memory. -/
theorem initBlock_fake_eq_mem (p : Port) (name : PinName) (dir : Nat) (s : Regs) :
    initBlock fakeBus p name dir s = initBlock memBus p name dir s := rfl

theorem setBlock_mem_apply (p : Port) (name : PinName) (v : Int) (s : Regs)
    (q : Port) (r : Reg) (h : r ≠ Reg.BSRR ∧ r ≠ Reg.BRR) :
    setBlock memBus p name v s q r = s q r := by
  unfold setBlock memBus
  split <;> simp [h.1, h.2]

theorem setBlock_fake_apply (p : Port) (name : PinName) (v : Int) (s : Regs)
    (q : Port) (r : Reg) :
    setBlock fakeBus p name v s q r =
      if q = p ∧ r = Reg.IDR then
        (if v = MBCI_IO_HIGH then s p Reg.IDR ||| pinMask name
          else s p Reg.IDR ^^^ (s p Reg.IDR &&& pinMask name))
      else s q r := by
  unfold setBlock fakeBus
  split <;> rfl

/-- On the simulated block a write changes the latch only inside the mask. -/
theorem setBlock_fake_testBit (p : Port) (name : PinName) (v : Int) (s : Regs)
    (q : Port) (r : Reg) (j : Nat) (h : (pinMask name).testBit j = false) :
    (setBlock fakeBus p name v s q r).testBit j = (s q r).testBit j := by
  rw [setBlock_fake_apply]
  split
  · next hc =>
    obtain ⟨h1, h2⟩ := hc
    subst h1; subst h2
    split
    · rw [Nat.testBit_lor, h, Bool.or_false]
    · rw [clr_testBit, h]; simp
  · rfl

theorem pinMask_testBit_of_ne (a b : PinName) (h : GPIO_PIN a ≠ GPIO_PIN b) :
    (pinMask a).testBit (GPIO_PIN b) = false := by
  rw [pinMask_testBit]
  simp [h]

/-- Distinct pin indices of two well-formed identifiers give distinct values
of `GPIO_PIN`. -/
theorem GPIO_PIN_ne_of_pins (a b : PinName)
    (h : GPIO_PIN a ≠ GPIO_PIN b ∨
      (HasPinDigits a ∧ HasPinDigits b ∧ pinIndex a ≠ pinIndex b)) :
    GPIO_PIN a ≠ GPIO_PIN b := by
  rcases h with h | ⟨ha, hb, hne⟩
  · exact h
  · rw [GPIO_PIN_of_digits a ha, GPIO_PIN_of_digits b hb]
    omega

/-! ### Behaviour at the bit index that the code computes

When `GPIO_PIN name` itself is below 16 (the characters at positions 3 and 4
are raw codes, not digits), the three operations act on that bit. -/

theorem init_output_at_computed_bit (name : PinName) (p : Port) (s : Regs)
    (hp : portOf name = some p) (h : GPIO_PIN name < 16) :
    ((mbci_gpio_init memBus name MBCI_GPIO_OUT_PP s p Reg.DIR).testBit (GPIO_PIN name) = false ∧
      (mbci_gpio_init memBus name MBCI_GPIO_OUT_PP s p Reg.OPENDRAIN).testBit (GPIO_PIN name)
        = false) ∧
    ((mbci_gpio_init memBus name MBCI_GPIO_OUT_OD s p Reg.DIR).testBit (GPIO_PIN name) = false ∧
      (mbci_gpio_init memBus name MBCI_GPIO_OUT_OD s p Reg.OPENDRAIN).testBit (GPIO_PIN name)
        = true) := by
  have hm : (pinMask name).testBit (GPIO_PIN name) = true := by
    rw [pinMask_testBit]; simp [h]
  simp [init_of_port _ _ _ _ p hp, initBlock_mem_DIR, initBlock_mem_OPENDRAIN, hm,
    MBCI_GPIO_OUT_PP, MBCI_GPIO_OUT_OD]

theorem set_stores_computed_mask {σ : Type} (bus : Bus σ) (name : PinName) (p : Port) (s : σ)
    (hp : portOf name = some p) (h : GPIO_PIN name < 16) :
    mbci_gpio_set bus name MBCI_IO_HIGH s = bus.store s p Reg.BSRR (2 ^ GPIO_PIN name) ∧
    mbci_gpio_set bus name MBCI_IO_LOW s = bus.store s p Reg.BRR (2 ^ GPIO_PIN name) := by
  simp [set_of_port _ _ _ _ p hp, setBlock, pinMask_of_lt name h, MBCI_IO_HIGH, MBCI_IO_LOW]

theorem get_reads_computed_bit (name : PinName) (p : Port) (s : Regs)
    (hp : portOf name = some p) (h : GPIO_PIN name < 16) :
    mbci_gpio_get memBus name s =
      some (if (s p Reg.IDR).testBit (GPIO_PIN name) = true then MBCI_IO_HIGH
        else MBCI_IO_LOW) := by
  rw [get_of_port _ _ _ p hp]
  unfold getBlock
  have := and_pinMask_ne_zero (memBus.load s p Reg.IDR) name
  by_cases hb : (s p Reg.IDR).testBit (GPIO_PIN name) = true
  · rw [if_pos (this.2 ⟨h, hb⟩), if_pos hb]
  · rw [if_neg (fun hc => hb (this.1 hc).2), if_neg hb]

theorem roundtrip_at_computed_bit (name : PinName) (p : Port) (s : Regs)
    (hp : portOf name = some p) (h : GPIO_PIN name < 16) :
    mbci_gpio_get fakeBus name
      (mbci_gpio_set fakeBus name MBCI_IO_HIGH
        (mbci_gpio_init fakeBus name MBCI_GPIO_OUT_PP s)) = some MBCI_IO_HIGH := by
  rw [get_of_port _ _ _ p hp, set_of_port _ _ _ _ p hp]
  unfold getBlock
  have hl : ∀ t : Regs, fakeBus.load t p Reg.IDR = t p Reg.IDR := fun _ => rfl
  rw [hl, if_pos]
  rw [and_pinMask_ne_zero]
  refine ⟨h, ?_⟩
  rw [setBlock_fake_apply]
  simp only [and_self, if_true]
  rw [Nat.testBit_lor, pinMask_testBit]
  simp [h]

/-! ### Further auxiliary lemmas -/

theorem portOf_eq_none (name : PinName) (h : portOf name = none) :
    charAt name 1 ≠ 'A' ∧ charAt name 1 ≠ 'B' ∧ charAt name 1 ≠ 'C' ∧ charAt name 1 ≠ 'F' := by
  unfold portOf at h
  split_ifs at h with hA hB hC hF
  exact ⟨hA, hB, hC, hF⟩

/-- The port that a designator character selects. -/
theorem portOf_of_char (name : PinName) (p : Port)
    (h : (charAt name 1 = 'A' ∧ p = Port.A) ∨ (charAt name 1 = 'B' ∧ p = Port.B) ∨
      (charAt name 1 = 'C' ∧ p = Port.C) ∨ (charAt name 1 = 'F' ∧ p = Port.F)) :
    portOf name = some p := by
  unfold portOf
  rcases h with ⟨hc, hp⟩ | ⟨hc, hp⟩ | ⟨hc, hp⟩ | ⟨hc, hp⟩ <;> rw [hc, hp] <;> decide

theorem pinMask_congr (a b : PinName) (h3 : charAt a 3 = charAt b 3)
    (h4 : charAt a 4 = charAt b 4) : pinMask a = pinMask b := by
  unfold pinMask GPIO_PIN
  rw [h3, h4]

theorem or_mask_twice (x m : Nat) : (x ||| m) ||| m = x ||| m := by
  rw [Nat.or_assoc, Nat.or_self]

theorem clr_mask_twice (x m : Nat) :
    (x ^^^ (x &&& m)) ^^^ ((x ^^^ (x &&& m)) &&& m) = x ^^^ (x &&& m) := by
  apply Nat.eq_of_testBit_eq
  intro j
  rw [clr_testBit, clr_testBit]
  cases x.testBit j <;> cases m.testBit j <;> rfl

theorem setBlock_mem_twice (p : Port) (name : PinName) (v : Int) (s : Regs) :
    setBlock memBus p name v (setBlock memBus p name v s) = setBlock memBus p name v s := by
  funext q r
  unfold setBlock
  by_cases hv : v = MBCI_IO_HIGH
  · simp only [if_pos hv, memBus]
    split_ifs <;> rfl
  · simp only [if_neg hv, memBus]
    split_ifs <;> rfl

theorem setBlock_fake_twice (p : Port) (name : PinName) (v : Int) (s : Regs) :
    setBlock fakeBus p name v (setBlock fakeBus p name v s) = setBlock fakeBus p name v s := by
  funext q r
  rw [setBlock_fake_apply p name v (setBlock fakeBus p name v s) q r,
    setBlock_fake_apply p name v s q r, setBlock_fake_apply p name v s p Reg.IDR]
  have hpp : p = p ∧ Reg.IDR = Reg.IDR := ⟨rfl, rfl⟩
  by_cases hc : q = p ∧ r = Reg.IDR
  · by_cases hv : v = MBCI_IO_HIGH
    · simp only [if_pos hc, if_pos hpp, if_pos hv]
      exact or_mask_twice _ _
    · simp only [if_pos hc, if_pos hpp, if_neg hv]
      exact clr_mask_twice _ _
  · simp only [if_neg hc]

/-- The three input modes and the value `0x10` all fail the test against
`0x03` and the test against `MBCI_GPIO_OUT_OD`, so the generic configure
routine performs the same register accesses for them. -/
theorem initBlock_floating_eq_pull_up {σ : Type} (bus : Bus σ) (p : Port) (name : PinName)
    (s : σ) :
    initBlock bus p name MBCI_GPIO_IN_FLOATING s = initBlock bus p name MBCI_GPIO_IN_PULL_UP s := by
  unfold initBlock MBCI_GPIO_IN_FLOATING MBCI_GPIO_IN_PULL_UP MBCI_GPIO_IN_PULL_DOWN
    MBCI_GPIO_OUT_PP MBCI_GPIO_OUT_OD
  rfl

/-- C1: pin-index resolution at the two boundary identifiers.  `GPIO_PIN` adds
the character codes of the two digits without subtracting the code of `0`:
the identifier "P1.00", whose pin index is 0, resolves to 528, and the
identifier "PA.15", whose pin index is 15, resolves to 543. -/
theorem GPIO_PIN_at_boundary_names :
    (pinIndex "P1.00".toList = 0 ∧ GPIO_PIN "P1.00".toList = 528) ∧
    (pinIndex "PA.15".toList = 15 ∧ GPIO_PIN "PA.15".toList = 543) := by
  decide

/-- C2: direction bit after configuring an input mode.  For the identifier
"PA.05" each of the three input modes leaves every register as it was, so the
direction bit of pin 5 is still 0 when it was 0 before the call; and for a
name whose computed bit index is 5 the three input modes clear bit 5 of `DIR`
of block A, whatever the starting state, because the mode value is compared
with `0x03`. -/
theorem init_input_mode_direction_bit :
    (∀ s : Regs,
      mbci_gpio_init memBus "PA.05".toList MBCI_GPIO_IN_FLOATING s = s ∧
      mbci_gpio_init memBus "PA.05".toList MBCI_GPIO_IN_PULL_UP s = s ∧
      mbci_gpio_init memBus "PA.05".toList MBCI_GPIO_IN_PULL_DOWN s = s) ∧
    (mbci_gpio_init memBus "PA.05".toList MBCI_GPIO_IN_PULL_UP (constRegs 0)
      Port.A Reg.DIR).testBit 5 = false ∧
    (∀ s : Regs,
      (mbci_gpio_init memBus (rawName 'A' 5) MBCI_GPIO_IN_FLOATING s
        Port.A Reg.DIR).testBit 5 = false ∧
      (mbci_gpio_init memBus (rawName 'A' 5) MBCI_GPIO_IN_PULL_UP s
        Port.A Reg.DIR).testBit 5 = false ∧
      (mbci_gpio_init memBus (rawName 'A' 5) MBCI_GPIO_IN_PULL_DOWN s
        Port.A Reg.DIR).testBit 5 = false) := by
  have hp : portOf "PA.05".toList = some Port.A := by decide
  have hm : pinMask "PA.05".toList = 0 := by decide
  have hq : portOf (rawName 'A' 5) = some Port.A := by decide
  have hb : (pinMask (rawName 'A' 5)).testBit 5 = true := by decide
  refine ⟨fun s => ⟨?_, ?_, ?_⟩, by decide, fun s => ⟨?_, ?_, ?_⟩⟩
  · rw [init_of_port _ _ _ _ Port.A hp, initBlock_mem_mask_zero _ _ _ _ hm]
  · rw [init_of_port _ _ _ _ Port.A hp, initBlock_mem_mask_zero _ _ _ _ hm]
  · rw [init_of_port _ _ _ _ Port.A hp, initBlock_mem_mask_zero _ _ _ _ hm]
  · rw [init_of_port _ _ _ _ Port.A hq, initBlock_mem_DIR, hb]
    simp [MBCI_GPIO_IN_FLOATING]
  · rw [init_of_port _ _ _ _ Port.A hq, initBlock_mem_DIR, hb]
    simp [MBCI_GPIO_IN_PULL_UP]
  · rw [init_of_port _ _ _ _ Port.A hq, initBlock_mem_DIR, hb]
    simp [MBCI_GPIO_IN_PULL_DOWN]

/-- C3: pull-resistor bits after configuring an input mode.  For the identifier
"PA.05", every mode value and every starting state the configure call leaves
the pull-up register `PUR` and the pull-down register `PDR` of block A as
they were: from the all-zero state the pull-up bit of pin 5 is still clear
after `MBCI_GPIO_IN_PULL_UP` and after `MBCI_GPIO_IN_FLOATING`, and the
pull-down bit is still clear after `MBCI_GPIO_IN_PULL_DOWN`.  The same holds
for a name whose computed bit index is 5. -/
theorem init_input_mode_pull_bits :
    (∀ (s : Regs) (dir : Nat),
      mbci_gpio_init memBus "PA.05".toList dir s Port.A Reg.PUR = s Port.A Reg.PUR ∧
      mbci_gpio_init memBus "PA.05".toList dir s Port.A Reg.PDR = s Port.A Reg.PDR) ∧
    (mbci_gpio_init memBus "PA.05".toList MBCI_GPIO_IN_PULL_UP (constRegs 0)
      Port.A Reg.PUR).testBit 5 = false ∧
    (mbci_gpio_init memBus "PA.05".toList MBCI_GPIO_IN_FLOATING (constRegs 0)
      Port.A Reg.PUR).testBit 5 = false ∧
    (mbci_gpio_init memBus "PA.05".toList MBCI_GPIO_IN_PULL_DOWN (constRegs 0)
      Port.A Reg.PDR).testBit 5 = false ∧
    (∀ (s : Regs) (dir : Nat),
      mbci_gpio_init memBus (rawName 'A' 5) dir s Port.A Reg.PUR = s Port.A Reg.PUR ∧
      mbci_gpio_init memBus (rawName 'A' 5) dir s Port.A Reg.PDR = s Port.A Reg.PDR) := by
  have hp : portOf "PA.05".toList = some Port.A := by decide
  have hq : portOf (rawName 'A' 5) = some Port.A := by decide
  refine ⟨fun s dir => ?_, by decide, by decide, by decide, fun s dir => ?_⟩
  · rw [init_of_port _ _ _ _ Port.A hp]
    exact initBlock_mem_pull _ _ _ _
  · rw [init_of_port _ _ _ _ Port.A hq]
    exact initBlock_mem_pull _ _ _ _

/-- C4: output configuration at the identifier "PA.05".  Both output modes
leave every register as it was: after `MBCI_GPIO_OUT_PP` from the state with
all bits set the direction bit and the open-drain bit of pin 5 are still 1,
and after `MBCI_GPIO_OUT_OD` from the all-zero state the open-drain bit of
pin 5 is still 0. -/
theorem init_output_mode_at_PA05 :
    (∀ s : Regs,
      mbci_gpio_init memBus "PA.05".toList MBCI_GPIO_OUT_PP s = s ∧
      mbci_gpio_init memBus "PA.05".toList MBCI_GPIO_OUT_OD s = s) ∧
    ((mbci_gpio_init memBus "PA.05".toList MBCI_GPIO_OUT_PP (constRegs 65535)
        Port.A Reg.DIR).testBit 5 = true ∧
      (mbci_gpio_init memBus "PA.05".toList MBCI_GPIO_OUT_PP (constRegs 65535)
        Port.A Reg.OPENDRAIN).testBit 5 = true) ∧
    (mbci_gpio_init memBus "PA.05".toList MBCI_GPIO_OUT_OD (constRegs 0)
      Port.A Reg.OPENDRAIN).testBit 5 = false := by
  have hp : portOf "PA.05".toList = some Port.A := by decide
  have hm : pinMask "PA.05".toList = 0 := by decide
  refine ⟨fun s => ⟨?_, ?_⟩, by decide, by decide⟩
  · rw [init_of_port _ _ _ _ Port.A hp, initBlock_mem_mask_zero _ _ _ _ hm]
  · rw [init_of_port _ _ _ _ Port.A hp, initBlock_mem_mask_zero _ _ _ _ hm]

/-- C5: write at the identifier "PA.05".  Over every bus, the call with
`MBCI_IO_HIGH` is one store of the value 0 to `BSRR` of block A and the call
with `MBCI_IO_LOW` is one store of the value 0 to `BRR` of block A; the mask
of pin 5, `1 <<< 5 = 32`, is not the value stored. -/
theorem set_at_PA05_stores_zero {σ : Type} (bus : Bus σ) (s : σ) :
    mbci_gpio_set bus "PA.05".toList MBCI_IO_HIGH s = bus.store s Port.A Reg.BSRR 0 ∧
    mbci_gpio_set bus "PA.05".toList MBCI_IO_LOW s = bus.store s Port.A Reg.BRR 0 ∧
    pinMask "PA.05".toList ≠ 1 <<< 5 := by
  have hp : portOf "PA.05".toList = some Port.A := by decide
  have hm : pinMask "PA.05".toList = 0 := by decide
  refine ⟨?_, ?_, by decide⟩
  · rw [set_of_port _ _ _ _ Port.A hp]
    unfold setBlock
    rw [hm, if_pos rfl]
  · rw [set_of_port _ _ _ _ Port.A hp]
    unfold setBlock
    rw [hm, if_neg (by decide)]

/-- C6: read at the identifier "PA.05".  The call returns `MBCI_IO_LOW` in
every register state, also in the state in which every bit of the input-data
register of block A is set. -/
theorem get_at_PA05_is_low :
    (∀ s : Regs, mbci_gpio_get memBus "PA.05".toList s = some MBCI_IO_LOW) ∧
    (constRegs 65535 Port.A Reg.IDR).testBit 5 = true ∧
    mbci_gpio_get memBus "PA.05".toList (constRegs 65535) = some MBCI_IO_LOW := by
  have hp : portOf "PA.05".toList = some Port.A := by decide
  have hm : pinMask "PA.05".toList = 0 := by decide
  refine ⟨fun s => ?_, by decide, by decide⟩
  rw [get_of_port _ _ _ Port.A hp]
  unfold getBlock
  rw [hm, Nat.and_zero, if_neg (fun h => h rfl)]

/-- C9: unknown port is a silent no-op.  For every name whose second
character is none of `A`, `B`, `C`, `F`, every mode value, every level value
and every starting state, over every bus, `mbci_gpio_init` and
`mbci_gpio_set` return the starting state: no register is stored to. -/
theorem unknown_port_is_noop {σ : Type} (bus : Bus σ) (name : PinName) (dir : Nat)
    (value : Int) (s : σ)
    (hA : charAt name 1 ≠ 'A') (hB : charAt name 1 ≠ 'B') (hC : charAt name 1 ≠ 'C')
    (hF : charAt name 1 ≠ 'F') :
    mbci_gpio_init bus name dir s = s ∧ mbci_gpio_set bus name value s = s :=
  ⟨init_of_no_port bus name dir s hA hB hC hF, set_of_no_port bus name value s hA hB hC hF⟩

theorem unknown_port_is_noop_witness :
    (charAt "PZ.05".toList 1 ≠ 'A' ∧ charAt "PZ.05".toList 1 ≠ 'B' ∧
      charAt "PZ.05".toList 1 ≠ 'C' ∧ charAt "PZ.05".toList 1 ≠ 'F') ∧
    (mbci_gpio_init memBus "PZ.05".toList MBCI_GPIO_OUT_PP (constRegs 65535) = constRegs 65535 ∧
      mbci_gpio_set memBus "PZ.05".toList MBCI_IO_HIGH (constRegs 65535) = constRegs 65535) :=
  ⟨⟨by decide, by decide, by decide, by decide⟩,
    unknown_port_is_noop memBus "PZ.05".toList MBCI_GPIO_OUT_PP MBCI_IO_HIGH
      (constRegs 65535) (by decide) (by decide) (by decide) (by decide)⟩

/-- C10: cross-pin independence of write.  For two names on the same known
port that designate distinct pins (their computed bit indices differ, which
is the case when they are well-formed identifiers with distinct pin
indices), every level value and every starting state, over plain register
memory and over the simulated block whose `IDR` mirrors the output latch:
`mbci_gpio_set` on the first name does not change what `mbci_gpio_get`
returns for the second, and leaves `DIR`, `PUR`, `PDR` and `OPENDRAIN` of
every block as they were. -/
theorem set_cross_pin_independent (a b : PinName) (p : Port) (v : Int) (s : Regs)
    (ha : portOf a = some p) (hb : portOf b = some p)
    (hne : GPIO_PIN a ≠ GPIO_PIN b ∨
      (HasPinDigits a ∧ HasPinDigits b ∧ pinIndex a ≠ pinIndex b)) :
    (mbci_gpio_get memBus b (mbci_gpio_set memBus a v s) = mbci_gpio_get memBus b s ∧
      ∀ (q : Port) (r : Reg),
        r = Reg.DIR ∨ r = Reg.PUR ∨ r = Reg.PDR ∨ r = Reg.OPENDRAIN →
        mbci_gpio_set memBus a v s q r = s q r) ∧
    (mbci_gpio_get fakeBus b (mbci_gpio_set fakeBus a v s) = mbci_gpio_get fakeBus b s ∧
      ∀ (q : Port) (r : Reg),
        r = Reg.DIR ∨ r = Reg.PUR ∨ r = Reg.PDR ∨ r = Reg.OPENDRAIN →
        mbci_gpio_set fakeBus a v s q r = s q r) := by
  have hn := GPIO_PIN_ne_of_pins a b hne
  rw [get_of_port _ _ _ p hb, get_of_port _ _ _ p hb, get_of_port _ _ _ p hb,
    get_of_port _ _ _ p hb, set_of_port _ _ _ _ p ha, set_of_port _ _ _ _ p ha]
  refine ⟨⟨?_, fun q r hr => ?_⟩, ⟨?_, fun q r hr => ?_⟩⟩
  · unfold getBlock
    have hl : memBus.load (setBlock memBus p a v s) p Reg.IDR = memBus.load s p Reg.IDR :=
      setBlock_mem_apply p a v s p Reg.IDR (by decide)
    rw [hl]
  · apply setBlock_mem_apply
    rcases hr with h | h | h | h <;> subst h <;> decide
  · unfold getBlock
    have hl : ∀ t : Regs, fakeBus.load t p Reg.IDR = t p Reg.IDR := fun _ => rfl
    have hiff : (setBlock fakeBus p a v s p Reg.IDR &&& pinMask b ≠ 0) ↔
        (s p Reg.IDR &&& pinMask b ≠ 0) := by
      rw [and_pinMask_ne_zero, and_pinMask_ne_zero,
        setBlock_fake_testBit _ _ _ _ _ _ _ (pinMask_testBit_of_ne a b hn)]
    rw [hl, hl]
    by_cases hc : s p Reg.IDR &&& pinMask b ≠ 0
    · rw [if_pos hc, if_pos (hiff.2 hc)]
    · rw [if_neg hc, if_neg (fun h => hc (hiff.1 h))]
  · rw [setBlock_fake_apply, if_neg]
    rintro ⟨_, h⟩
    rcases hr with h1 | h1 | h1 | h1 <;> subst h1 <;> exact absurd h (by decide)

theorem set_cross_pin_independent_witness :
    (portOf "PA.03".toList = some Port.A ∧ portOf "PA.05".toList = some Port.A ∧
      (GPIO_PIN "PA.03".toList ≠ GPIO_PIN "PA.05".toList ∨
        (HasPinDigits "PA.03".toList ∧ HasPinDigits "PA.05".toList ∧
          pinIndex "PA.03".toList ≠ pinIndex "PA.05".toList))) ∧
    ((mbci_gpio_get memBus "PA.05".toList
          (mbci_gpio_set memBus "PA.03".toList MBCI_IO_HIGH (constRegs 0))
        = mbci_gpio_get memBus "PA.05".toList (constRegs 0) ∧
      ∀ (q : Port) (r : Reg),
        r = Reg.DIR ∨ r = Reg.PUR ∨ r = Reg.PDR ∨ r = Reg.OPENDRAIN →
        mbci_gpio_set memBus "PA.03".toList MBCI_IO_HIGH (constRegs 0) q r
          = constRegs 0 q r) ∧
    (mbci_gpio_get fakeBus "PA.05".toList
          (mbci_gpio_set fakeBus "PA.03".toList MBCI_IO_HIGH (constRegs 0))
        = mbci_gpio_get fakeBus "PA.05".toList (constRegs 0) ∧
      ∀ (q : Port) (r : Reg),
        r = Reg.DIR ∨ r = Reg.PUR ∨ r = Reg.PDR ∨ r = Reg.OPENDRAIN →
        mbci_gpio_set fakeBus "PA.03".toList MBCI_IO_HIGH (constRegs 0) q r
          = constRegs 0 q r)) :=
  ⟨⟨by decide, by decide, Or.inr ⟨by decide, by decide, by decide⟩⟩,
    set_cross_pin_independent "PA.03".toList "PA.05".toList Port.A MBCI_IO_HIGH (constRegs 0)
      (by decide) (by decide) (Or.inr ⟨by decide, by decide, by decide⟩)⟩

/-- C11: idempotence of write.  For every name, every level value and every
starting state, over plain register memory and over the simulated block,
calling `mbci_gpio_set` twice in a row with the same level gives exactly the
state that one call gives; in particular for `MBCI_IO_HIGH` and for
`MBCI_IO_LOW`. -/
theorem set_twice_eq_set_once (name : PinName) (v : Int) (s : Regs) :
    mbci_gpio_set memBus name v (mbci_gpio_set memBus name v s) = mbci_gpio_set memBus name v s ∧
    mbci_gpio_set fakeBus name v (mbci_gpio_set fakeBus name v s)
      = mbci_gpio_set fakeBus name v s := by
  cases hp : portOf name with
  | none =>
    obtain ⟨hA, hB, hC, hF⟩ := portOf_eq_none name hp
    simp only [set_of_no_port _ _ _ _ hA hB hC hF, and_self]
  | some p =>
    simp only [set_of_port _ _ _ _ p hp]
    exact ⟨setBlock_mem_twice p name v s, setBlock_fake_twice p name v s⟩

/-- C12: only three characters of the name matter.  For two names of length
at least 5 that agree at the zero-based positions 1, 3 and 4, every mode
value, level value and starting state, over every bus, `mbci_gpio_init` and
`mbci_gpio_set` give the same final state and `mbci_gpio_get` gives the same
result. -/
theorem name_read_at_three_positions {σ : Type} (bus : Bus σ) (a b : PinName) (dir : Nat)
    (v : Int) (s : σ) (_ha : 5 ≤ a.length) (_hb : 5 ≤ b.length)
    (h1 : charAt a 1 = charAt b 1) (h3 : charAt a 3 = charAt b 3)
    (h4 : charAt a 4 = charAt b 4) :
    mbci_gpio_init bus a dir s = mbci_gpio_init bus b dir s ∧
    mbci_gpio_set bus a v s = mbci_gpio_set bus b v s ∧
    mbci_gpio_get bus a s = mbci_gpio_get bus b s := by
  have hm : pinMask a = pinMask b := pinMask_congr a b h3 h4
  unfold mbci_gpio_init mbci_gpio_set mbci_gpio_get
  rw [h1, hm]
  exact ⟨rfl, rfl, rfl⟩

theorem name_read_at_three_positions_witness :
    (5 ≤ "PA.05".toList.length ∧ 5 ≤ "XA-05".toList.length ∧
      charAt "PA.05".toList 1 = charAt "XA-05".toList 1 ∧
      charAt "PA.05".toList 3 = charAt "XA-05".toList 3 ∧
      charAt "PA.05".toList 4 = charAt "XA-05".toList 4) ∧
    (mbci_gpio_init memBus "PA.05".toList MBCI_GPIO_OUT_OD (constRegs 0)
        = mbci_gpio_init memBus "XA-05".toList MBCI_GPIO_OUT_OD (constRegs 0) ∧
      mbci_gpio_set memBus "PA.05".toList MBCI_IO_HIGH (constRegs 0)
        = mbci_gpio_set memBus "XA-05".toList MBCI_IO_HIGH (constRegs 0) ∧
      mbci_gpio_get memBus "PA.05".toList (constRegs 0)
        = mbci_gpio_get memBus "XA-05".toList (constRegs 0)) :=
  ⟨⟨by decide, by decide, by decide, by decide, by decide⟩,
    name_read_at_three_positions memBus "PA.05".toList "XA-05".toList MBCI_GPIO_OUT_OD
      MBCI_IO_HIGH (constRegs 0) (by decide) (by decide) (by decide) (by decide) (by decide)⟩

/-- C13: floating and pull-up are handled identically.  For every name and
every starting state, over every bus, `mbci_gpio_init` with
`MBCI_GPIO_IN_FLOATING` and with `MBCI_GPIO_IN_PULL_UP` give exactly the same
final state. -/
theorem init_floating_eq_pull_up {σ : Type} (bus : Bus σ) (name : PinName) (s : σ) :
    mbci_gpio_init bus name MBCI_GPIO_IN_FLOATING s
      = mbci_gpio_init bus name MBCI_GPIO_IN_PULL_UP s := by
  cases hp : portOf name with
  | none =>
    obtain ⟨hA, hB, hC, hF⟩ := portOf_eq_none name hp
    rw [init_of_no_port _ _ _ _ hA hB hC hF, init_of_no_port _ _ _ _ hA hB hC hF]
  | some p =>
    rw [init_of_port _ _ _ _ p hp, init_of_port _ _ _ _ p hp]
    exact initBlock_floating_eq_pull_up bus p name s

/-- C14: uniformity across ports.  For every name whose port designator is
`A`, `B`, `C` or `F`, with `p` the block that the designator selects, every
mode value, level value and state, over every bus, each of `mbci_gpio_init`,
`mbci_gpio_set` and `mbci_gpio_get` equals one application of the generic
routine (the logic of the port-A branch) to the block `p`. -/
theorem ports_handled_uniformly {σ : Type} (bus : Bus σ) (name : PinName) (dir : Nat)
    (v : Int) (s : σ) (p : Port)
    (h : (charAt name 1 = 'A' ∧ p = Port.A) ∨ (charAt name 1 = 'B' ∧ p = Port.B) ∨
      (charAt name 1 = 'C' ∧ p = Port.C) ∨ (charAt name 1 = 'F' ∧ p = Port.F)) :
    mbci_gpio_init bus name dir s = initBlock bus p name dir s ∧
    mbci_gpio_set bus name v s = setBlock bus p name v s ∧
    mbci_gpio_get bus name s = some (getBlock bus p name s) :=
  have hp := portOf_of_char name p h
  ⟨init_of_port bus name dir s p hp, set_of_port bus name v s p hp, get_of_port bus name s p hp⟩

theorem ports_handled_uniformly_witness :
    ((charAt "PF.06".toList 1 = 'A' ∧ Port.F = Port.A) ∨
      (charAt "PF.06".toList 1 = 'B' ∧ Port.F = Port.B) ∨
      (charAt "PF.06".toList 1 = 'C' ∧ Port.F = Port.C) ∨
      (charAt "PF.06".toList 1 = 'F' ∧ Port.F = Port.F)) ∧
    (mbci_gpio_init memBus "PF.06".toList MBCI_GPIO_OUT_OD (constRegs 0)
        = initBlock memBus Port.F "PF.06".toList MBCI_GPIO_OUT_OD (constRegs 0) ∧
      mbci_gpio_set memBus "PF.06".toList MBCI_IO_LOW (constRegs 0)
        = setBlock memBus Port.F "PF.06".toList MBCI_IO_LOW (constRegs 0) ∧
      mbci_gpio_get memBus "PF.06".toList (constRegs 0)
        = some (getBlock memBus Port.F "PF.06".toList (constRegs 0))) :=
  ⟨by decide,
    ports_handled_uniformly memBus "PF.06".toList MBCI_GPIO_OUT_OD MBCI_IO_LOW (constRegs 0)
      Port.F (by decide)⟩

/-- C15: the input-category test and the five enumerated modes.  The test
`dir == (MBCI_GPIO_IN_FLOATING | MBCI_GPIO_IN_PULL_UP | MBCI_GPIO_IN_PULL_DOWN)`
holds exactly for the value `0x03`, which none of the five enumerated modes
has.  Hence for each of the five modes and every name on a known port `p`,
with `m` the mask computed from the name, the call ends with
`DIR = DIR & ~m`, `PUR` and `PDR` unchanged, and `OPENDRAIN = OPENDRAIN | m`
for `MBCI_GPIO_OUT_OD`, `OPENDRAIN & ~m` for the other four modes (`x & ~m`
is written `x ^^^ (x &&& m)` on natural numbers). -/
theorem init_enumerated_mode_takes_output_branch (name : PinName) (dir : Nat) (s : Regs)
    (p : Port) (hp : portOf name = some p)
    (hd : dir = MBCI_GPIO_IN_FLOATING ∨ dir = MBCI_GPIO_IN_PULL_UP ∨
      dir = MBCI_GPIO_IN_PULL_DOWN ∨ dir = MBCI_GPIO_OUT_PP ∨ dir = MBCI_GPIO_OUT_OD) :
    (∀ d : Nat, d = (MBCI_GPIO_IN_FLOATING ||| MBCI_GPIO_IN_PULL_UP ||| MBCI_GPIO_IN_PULL_DOWN)
      ↔ d = 0x03) ∧
    dir ≠ 0x03 ∧
    mbci_gpio_init memBus name dir s p Reg.DIR
      = s p Reg.DIR ^^^ (s p Reg.DIR &&& pinMask name) ∧
    mbci_gpio_init memBus name dir s p Reg.PUR = s p Reg.PUR ∧
    mbci_gpio_init memBus name dir s p Reg.PDR = s p Reg.PDR ∧
    mbci_gpio_init memBus name dir s p Reg.OPENDRAIN
      = (if dir = MBCI_GPIO_OUT_OD then s p Reg.OPENDRAIN ||| pinMask name
          else s p Reg.OPENDRAIN ^^^ (s p Reg.OPENDRAIN &&& pinMask name)) := by
  have h3 : dir ≠ 3 := by
    unfold MBCI_GPIO_IN_FLOATING MBCI_GPIO_IN_PULL_UP MBCI_GPIO_IN_PULL_DOWN
      MBCI_GPIO_OUT_PP MBCI_GPIO_OUT_OD at hd
    omega
  rw [init_of_port _ _ _ _ p hp]
  refine ⟨fun d => ?_, h3, ?_, (initBlock_mem_pull p name dir s).1,
    (initBlock_mem_pull p name dir s).2, ?_⟩
  · have : (MBCI_GPIO_IN_FLOATING ||| MBCI_GPIO_IN_PULL_UP ||| MBCI_GPIO_IN_PULL_DOWN) = 3 := by
      decide
    rw [this]
  · apply Nat.eq_of_testBit_eq
    intro j
    rw [initBlock_mem_DIR, if_neg h3, clr_testBit]
  · apply Nat.eq_of_testBit_eq
    intro j
    rw [initBlock_mem_OPENDRAIN, if_neg h3]
    by_cases ho : dir = MBCI_GPIO_OUT_OD
    · have ho1 : dir = 0x11 := ho
      rw [if_pos ho, if_pos ho1, Nat.testBit_lor]
    · have ho1 : ¬ dir = 0x11 := ho
      rw [if_neg ho, if_neg ho1, clr_testBit]

theorem init_enumerated_mode_takes_output_branch_witness :
    (portOf (rawName 'C' 9) = some Port.C ∧
      (MBCI_GPIO_IN_PULL_DOWN = MBCI_GPIO_IN_FLOATING ∨
        MBCI_GPIO_IN_PULL_DOWN = MBCI_GPIO_IN_PULL_UP ∨
        MBCI_GPIO_IN_PULL_DOWN = MBCI_GPIO_IN_PULL_DOWN ∨
        MBCI_GPIO_IN_PULL_DOWN = MBCI_GPIO_OUT_PP ∨
        MBCI_GPIO_IN_PULL_DOWN = MBCI_GPIO_OUT_OD)) ∧
    ((∀ d : Nat,
        d = (MBCI_GPIO_IN_FLOATING ||| MBCI_GPIO_IN_PULL_UP ||| MBCI_GPIO_IN_PULL_DOWN)
          ↔ d = 0x03) ∧
      MBCI_GPIO_IN_PULL_DOWN ≠ 0x03 ∧
      mbci_gpio_init memBus (rawName 'C' 9) MBCI_GPIO_IN_PULL_DOWN (constRegs 65535)
          Port.C Reg.DIR
        = constRegs 65535 Port.C Reg.DIR
          ^^^ (constRegs 65535 Port.C Reg.DIR &&& pinMask (rawName 'C' 9)) ∧
      mbci_gpio_init memBus (rawName 'C' 9) MBCI_GPIO_IN_PULL_DOWN (constRegs 65535)
          Port.C Reg.PUR
        = constRegs 65535 Port.C Reg.PUR ∧
      mbci_gpio_init memBus (rawName 'C' 9) MBCI_GPIO_IN_PULL_DOWN (constRegs 65535)
          Port.C Reg.PDR
        = constRegs 65535 Port.C Reg.PDR ∧
      mbci_gpio_init memBus (rawName 'C' 9) MBCI_GPIO_IN_PULL_DOWN (constRegs 65535)
          Port.C Reg.OPENDRAIN
        = (if MBCI_GPIO_IN_PULL_DOWN = MBCI_GPIO_OUT_OD then
            constRegs 65535 Port.C Reg.OPENDRAIN ||| pinMask (rawName 'C' 9)
          else constRegs 65535 Port.C Reg.OPENDRAIN
            ^^^ (constRegs 65535 Port.C Reg.OPENDRAIN &&& pinMask (rawName 'C' 9)))) :=
  ⟨⟨by decide, by decide⟩,
    init_enumerated_mode_takes_output_branch (rawName 'C' 9) MBCI_GPIO_IN_PULL_DOWN
      (constRegs 65535) Port.C (by decide) (by decide)⟩

/-- C16: `GPIO_PIN` uses the raw character codes.  For every name whose
characters at the zero-based positions 3 and 4 are the decimal digits with
values `d1` and `d0`, `GPIO_PIN` is `528 + 10 * d1 + d0`; it lies between 528
and 627, so it is not a bit index of a 16-bit register, and the mask
`(1 <<< GPIO_PIN) % 2 ^ 16` is 0. -/
theorem GPIO_PIN_of_digit_values (name : PinName) (d1 d0 : Nat) (h1 : d1 ≤ 9) (h0 : d0 ≤ 9)
    (c3 : (charAt name 3).toNat = 48 + d1) (c4 : (charAt name 4).toNat = 48 + d0) :
    GPIO_PIN name = 528 + 10 * d1 + d0 ∧
    (528 ≤ GPIO_PIN name ∧ GPIO_PIN name ≤ 627) ∧
    ¬ GPIO_PIN name ≤ 15 ∧
    (1 <<< GPIO_PIN name) % 2 ^ 16 = 0 ∧
    pinMask name = 0 := by
  have hg : GPIO_PIN name = 528 + 10 * d1 + d0 := by
    unfold GPIO_PIN u16
    omega
  have hm : pinMask name = 0 := pinMask_of_ge name (by omega)
  refine ⟨hg, ⟨by omega, by omega⟩, by omega, ?_, hm⟩
  have h16 : (2 : Nat) ^ 16 = 65536 := by norm_num
  have h1m : (0x0001 % 65536 : Nat) = 1 := by norm_num
  unfold pinMask at hm
  rw [h1m] at hm
  rw [h16]
  exact hm

theorem GPIO_PIN_of_digit_values_witness :
    ((1 : Nat) ≤ 9 ∧ (5 : Nat) ≤ 9 ∧ (charAt "PA.15".toList 3).toNat = 48 + 1 ∧
      (charAt "PA.15".toList 4).toNat = 48 + 5) ∧
    (GPIO_PIN "PA.15".toList = 528 + 10 * 1 + 5 ∧
      (528 ≤ GPIO_PIN "PA.15".toList ∧ GPIO_PIN "PA.15".toList ≤ 627) ∧
      ¬ GPIO_PIN "PA.15".toList ≤ 15 ∧
      (1 <<< GPIO_PIN "PA.15".toList) % 2 ^ 16 = 0 ∧
      pinMask "PA.15".toList = 0) :=
  ⟨⟨by decide, by decide, by decide, by decide⟩,
    GPIO_PIN_of_digit_values "PA.15".toList 1 5 (by decide) (by decide) (by decide) (by decide)⟩

/-- C17: every level value other than `MBCI_IO_HIGH` is treated as low.  For
every name on a known port `p`, every integer `v` other than 1 and every
starting state, over every bus, `mbci_gpio_set` with `v` gives the same final
state as with `MBCI_IO_LOW`: it is the single store of the mask computed from
the name to `BRR` of block `p`, with no store to `BSRR`. -/
theorem set_non_high_is_low {σ : Type} (bus : Bus σ) (name : PinName) (v : Int) (s : σ)
    (p : Port) (hp : portOf name = some p) (hv : v ≠ 1) :
    mbci_gpio_set bus name v s = mbci_gpio_set bus name MBCI_IO_LOW s ∧
    mbci_gpio_set bus name v s = bus.store s p Reg.BRR (pinMask name) := by
  have hl : MBCI_IO_LOW ≠ MBCI_IO_HIGH := by decide
  have hh : v ≠ MBCI_IO_HIGH := hv
  rw [set_of_port _ _ _ _ p hp, set_of_port _ _ _ _ p hp]
  unfold setBlock
  rw [if_neg hh, if_neg hl]
  exact ⟨rfl, rfl⟩

theorem set_non_high_is_low_witness :
    (portOf "PB.02".toList = some Port.B ∧ (-1 : Int) ≠ 1) ∧
    (mbci_gpio_set memBus "PB.02".toList (-1) (constRegs 0)
        = mbci_gpio_set memBus "PB.02".toList MBCI_IO_LOW (constRegs 0) ∧
      mbci_gpio_set memBus "PB.02".toList (-1) (constRegs 0)
        = memBus.store (constRegs 0) Port.B Reg.BRR (pinMask "PB.02".toList)) :=
  ⟨⟨by decide, by decide⟩,
    set_non_high_is_low memBus "PB.02".toList (-1) (constRegs 0) Port.B (by decide) (by decide)⟩

end MBCI
